import Mathlib

/-!
# Verification of the pagination / fetch-state controller of `src/App.tsx`

The React component `App` keeps its controller state in seven `useState`
hooks: `characters`, `page`, `loading`, `loadingMore`, `hasMore`, `selected`
and `error` (`selected` only drives the detail modal and plays no role in
the fetch logic, so it is omitted here).  We embed that state as `AppState`,
entities being represented by their integer `id` (the controller never
inspects any other field).

The asynchronous function `fetchCharacters(p)` is split at its unique
suspension point (the `await fetch(...)`) into
* `startFetch p` — the synchronous prefix (lines 30–32 of `App.tsx`):
  sets `loading` when `p === 1`, otherwise `loadingMore`, clears `error`,
  and records the request as outstanding (field `inflight`);
* `finishOk results next` — the success continuation (lines 35–40 plus the
  `finally` block, lines 44–47): replaces `characters` when the resolved
  page is 1, appends otherwise, sets `hasMore` from the envelope, clears
  both loading flags and removes the outstanding request;
* `finishErr` — the `catch` continuation (lines 41–43 plus `finally`):
  sets the fixed error message, clears both loading flags and removes the
  outstanding request.

`loadMoreFn` embeds `loadMore` (lines 54–59), returning the new state
together with the page number of the fetch it issues, if any.  `retryFn`
embeds the retry button handler `() => fetchCharacters(1)` (line 91).

The event machine `Step` captures which handlers the rendered UI can fire:
`onEndReached` (→ `loadMore`) can fire only while the `FlatList` is mounted,
i.e. when `!loading && !error` (line 95); the retry button exists only when
`!loading && error` (line 88).  A fetch resolution (`finishOk`/`finishErr`)
requires an outstanding request.  `Reachable` starts from the state right
after the mount effect (line 51) has issued `fetchCharacters(1)` on the
initial hook values.
-/

/-- The fetch-relevant component state of `App` (initial hook values are
`initialState` below).  `inflight` is the list of pages whose
`fetchCharacters` call has started but not yet reached its
`catch`/`finally`; the code has no such variable, the field models the
outstanding network requests. -/
structure AppState where
  characters : List Nat
  page : Nat
  loading : Bool
  loadingMore : Bool
  hasMore : Bool
  error : Option String
  inflight : List Nat
deriving DecidableEq, Repr

/-- The initial `useState` values: `[]`, `1`, `false`, `false`, `true`,
`null` (lines 20–26 of `App.tsx`). -/
def initialState : AppState :=
  { characters := []
    page := 1
    loading := false
    loadingMore := false
    hasMore := true
    error := none
    inflight := [] }

/-- The message set by the `catch` block (line 43). -/
def errorMessage : String :=
  "Não foi possível carregar personagens. Tente novamente."

/-- Synchronous prefix of `fetchCharacters(p)` up to the `await`
(lines 30–32): set the appropriate loading flag, clear `error`, and record
the request as outstanding. -/
def startFetch (p : Nat) (s : AppState) : AppState :=
  { s with
    loading := if p = 1 then true else s.loading
    loadingMore := if p = 1 then s.loadingMore else true
    error := none
    inflight := s.inflight ++ [p] }

/-- Success continuation of the oldest outstanding `fetchCharacters(p)`
(lines 37–40 and the `finally`, lines 44–47): `results` is `json.results`,
`next` is `!!json.info && !!json.info.next`.  When `p === 1` the page
replaces `characters`, otherwise it is appended. -/
def finishOk (results : List Nat) (next : Bool) (s : AppState) : AppState :=
  match s.inflight with
  | [] => s
  | p :: rest =>
    { s with
      characters := if p = 1 then results else s.characters ++ results
      hasMore := next
      loading := false
      loadingMore := false
      inflight := rest }

/-- Failure continuation of the oldest outstanding fetch (`catch`,
lines 41–43, and the `finally`, lines 44–47): sets `error`, clears both
loading flags; `characters`, `page` and `hasMore` are untouched. -/
def finishErr (s : AppState) : AppState :=
  match s.inflight with
  | [] => s
  | _ :: rest =>
    { s with
      error := some errorMessage
      loading := false
      loadingMore := false
      inflight := rest }

/-- `loadMore` (lines 54–59): returns immediately when
`loadingMore || loading || !hasMore`; otherwise advances `page` to
`page + 1` and starts `fetchCharacters(page + 1)`.  The second component is
the page of the fetch issued, if any. -/
def loadMoreFn (s : AppState) : AppState × Option Nat :=
  if s.loadingMore || s.loading || !s.hasMore then (s, none)
  else (startFetch (s.page + 1) { s with page := s.page + 1 }, some (s.page + 1))

/-- The state after a `loadMore` call. -/
def loadMoreState (s : AppState) : AppState := (loadMoreFn s).1

/-- The page of the fetch a `loadMore` call issues, if any. -/
def loadMoreIssued (s : AppState) : Option Nat := (loadMoreFn s).2

/-- The retry button handler `() => fetchCharacters(1)` (line 91):
unconditionally starts a page-1 fetch. -/
def retryFn (s : AppState) : AppState × Option Nat :=
  (startFetch 1 s, some 1)

/-- One UI-originated or network-originated event.
`loadMore` can fire only while the `FlatList` is rendered
(`!loading && !error`, line 95); `retry` only while the error view is
rendered (`!loading && error`, line 88); resolutions only while a request
is outstanding. -/
inductive Step : AppState → AppState → Prop where
  | loadMore (s : AppState) (h1 : s.loading = false) (h2 : s.error = none) :
      Step s (loadMoreFn s).1
  | retry (s : AppState) (h1 : s.loading = false) (h2 : s.error ≠ none) :
      Step s (retryFn s).1
  | fetchOk (s : AppState) (results : List Nat) (next : Bool)
      (h : s.inflight ≠ []) : Step s (finishOk results next s)
  | fetchErr (s : AppState) (h : s.inflight ≠ []) : Step s (finishErr s)

/-- States reachable from the mount: the `useEffect` (lines 50–52) issues
`fetchCharacters(1)` once on the initial hook values. -/
inductive Reachable : AppState → Prop where
  | start : Reachable (startFetch 1 initialState)
  | step {s t : AppState} : Reachable s → Step s t → Reachable t

/-- Controller invariant: at most one outstanding fetch; an outstanding
fetch keeps `error` cleared; a loading flag is up exactly while a fetch is
outstanding; `page` never drops below 1. -/
def CtrlInv (s : AppState) : Prop :=
  s.inflight.length ≤ 1 ∧
  (s.inflight ≠ [] → s.error = none) ∧
  ((s.loading = true ∨ s.loadingMore = true) ↔ s.inflight ≠ []) ∧
  1 ≤ s.page

example : startFetch 1 initialState =
    { characters := [], page := 1, loading := true, loadingMore := false,
      hasMore := true, error := none, inflight := [1] } := by decide

example : finishOk [10] true (startFetch 1 initialState) =
    { characters := [10], page := 1, loading := false, loadingMore := false,
      hasMore := true, error := none, inflight := [] } := by decide

/-- The mount state satisfies the invariant. -/
theorem ctrlInv_start : CtrlInv (startFetch 1 initialState) := by
  unfold CtrlInv startFetch initialState
  refine ⟨by simp, by simp, by simp, by simp⟩

/-- Every event preserves the invariant. -/
theorem ctrlInv_step {s t : AppState} (ih : CtrlInv s) (hst : Step s t) :
    CtrlInv t := by
  obtain ⟨hlen, herr, hiff, hpage⟩ := ih
  cases hst with
  | loadMore h1 h2 =>
      cases hlm : s.loadingMore with
      | true =>
          have hred : (loadMoreFn s).1 = s := by simp [loadMoreFn, hlm]
          rw [hred]; exact ⟨hlen, herr, hiff, hpage⟩
      | false =>
          cases hm : s.hasMore with
          | false =>
              have hred : (loadMoreFn s).1 = s := by simp [loadMoreFn, hm]
              rw [hred]; exact ⟨hlen, herr, hiff, hpage⟩
          | true =>
              have hinf : s.inflight = [] := by
                by_contra hne
                rcases hiff.mpr hne with hc | hc
                · rw [h1] at hc; exact Bool.false_ne_true hc
                · rw [hlm] at hc; exact Bool.false_ne_true hc
              have hp1 : ¬(s.page + 1 = 1) := by omega
              have hred : (loadMoreFn s).1 =
                  { s with
                    page := s.page + 1
                    loadingMore := true
                    error := none
                    inflight := [s.page + 1] } := by
                simp [loadMoreFn, startFetch, hlm, h1, hm, hinf, hp1]
              rw [hred]
              exact ⟨by simp, by simp, by simp, (by omega : 1 ≤ s.page + 1)⟩
  | retry h1 h2 =>
      have hinf : s.inflight = [] := by
        by_contra hne; exact h2 (herr hne)
      have hred : (retryFn s).1 =
          { s with
            loading := true
            error := none
            inflight := [1] } := by
        simp [retryFn, startFetch, hinf]
      rw [hred]
      exact ⟨by simp, by simp, by simp, hpage⟩
  | fetchOk results next h =>
      obtain ⟨p, rest, hc⟩ := List.exists_cons_of_ne_nil h
      have hrest : rest = [] := by
        rw [hc] at hlen; simpa using hlen
      subst hrest
      have hred : finishOk results next s =
          { s with
            characters := if p = 1 then results else s.characters ++ results
            hasMore := next
            loading := false
            loadingMore := false
            inflight := [] } := by
        simp [finishOk, hc]
      rw [hred]
      exact ⟨by simp, by simp, by simp, hpage⟩
  | fetchErr h =>
      obtain ⟨p, rest, hc⟩ := List.exists_cons_of_ne_nil h
      have hrest : rest = [] := by
        rw [hc] at hlen; simpa using hlen
      subst hrest
      have hred : finishErr s =
          { s with
            error := some errorMessage
            loading := false
            loadingMore := false
            inflight := [] } := by
        simp [finishErr, hc]
      rw [hred]
      exact ⟨by simp, by simp, by simp, hpage⟩

/-- Every reachable state satisfies the invariant. -/
theorem reachable_ctrlInv {s : AppState} (h : Reachable s) : CtrlInv s := by
  induction h with
  | start => exact ctrlInv_start
  | step hr hst ih => exact ctrlInv_step ih hst

/-- C1: Single-flight — along any reachable trace, at most one
`fetchCharacters` call is outstanding after every event; no event increases
the number of outstanding fetches while the controller is in a loading
phase (`loading` or `loadingMore` true), and an event that does start a new
fetch starts from a state with no fetch outstanding. -/
theorem single_flight_step (s t : AppState) (hr : Reachable s)
    (hst : Step s t) :
    t.inflight.length ≤ 1 ∧
    ((s.loading = true ∨ s.loadingMore = true) →
      t.inflight.length ≤ s.inflight.length) ∧
    (s.inflight.length < t.inflight.length → s.inflight = []) := by
  have hs := reachable_ctrlInv hr
  have ht := reachable_ctrlInv (Reachable.step hr hst)
  obtain ⟨hlen_s, herr_s, hiff_s, hpage_s⟩ := hs
  have hmono : (s.loading = true ∨ s.loadingMore = true) →
      t.inflight.length ≤ s.inflight.length := by
    intro hload
    have hne : s.inflight ≠ [] := hiff_s.mp hload
    cases hst with
    | loadMore h1 h2 =>
        have hlm : s.loadingMore = true := by
          rcases hload with hc | hc
        
          · rw [h1] at hc; exact absurd hc (by simp)
          · exact hc
        have hred : (loadMoreFn s).1 = s := by simp [loadMoreFn, hlm]
        rw [hred]
    | retry h1 h2 => exact absurd (herr_s hne) h2
    | fetchOk results next h =>
        obtain ⟨p, rest, hc⟩ := List.exists_cons_of_ne_nil h
        simp [finishOk, hc]
    | fetchErr h =>
        obtain ⟨p, rest, hc⟩ := List.exists_cons_of_ne_nil h
        simp [finishErr, hc]
  refine ⟨ht.1, hmono, ?_⟩
  intro hlt
  by_contra hne
  exact absurd (hmono (hiff_s.mpr hne)) (by omega)

/-- Witness for `single_flight_step`: the mount fetch failing is a step
from the reachable mount state. -/
theorem single_flight_step_witness :
    (finishErr (startFetch 1 initialState)).inflight.length ≤ 1 ∧
    (((startFetch 1 initialState).loading = true ∨
        (startFetch 1 initialState).loadingMore = true) →
      (finishErr (startFetch 1 initialState)).inflight.length ≤
        (startFetch 1 initialState).inflight.length) ∧
    ((startFetch 1 initialState).inflight.length <
        (finishErr (startFetch 1 initialState)).inflight.length →
      (startFetch 1 initialState).inflight = []) :=
  single_flight_step _ _ Reachable.start (Step.fetchErr _ (by decide))

/-- C2: Append-only ordering — from any reachable state, if `loadMore`
issues a fetch (for some page `p`), a successful resolution of that fetch
yields exactly the old list with the entities of the page appended, in page
order and with no deduplication. -/
theorem append_only_loadMore (s : AppState) (p : Nat) (results : List Nat)
    (next : Bool) (hr : Reachable s) (hp : loadMoreIssued s = some p) :
    (finishOk results next (loadMoreState s)).characters =
      s.characters ++ results := by
  obtain ⟨hlen, herr, hiff, hpage⟩ := reachable_ctrlInv hr
  cases hlm : s.loadingMore with
  | true => simp [loadMoreIssued, loadMoreFn, hlm] at hp
  | false =>
  cases hl : s.loading with
  | true => simp [loadMoreIssued, loadMoreFn, hl] at hp
  | false =>
  cases hm : s.hasMore with
  | false => simp [loadMoreIssued, loadMoreFn, hlm, hl, hm] at hp
  | true =>
  have hinf : s.inflight = [] := by
    by_contra hne
    rcases hiff.mpr hne with hc | hc
    · rw [hl] at hc; exact absurd hc (by simp)
    · rw [hlm] at hc; exact absurd hc (by simp)
  have hp1 : ¬(s.page + 1 = 1) := by omega
  have hred : loadMoreState s =
      { s with
        page := s.page + 1
        loadingMore := true
        error := none
        inflight := [s.page + 1] } := by
    simp [loadMoreState, loadMoreFn, startFetch, hlm, hl, hm, hinf, hp1]
  rw [hred]
  simp [finishOk, hp1]

/-- Witness for `append_only_loadMore`: after the mount fetch succeeds with
one entity, a `loadMore` fetch of page 2 succeeding with entity `5` appends
it. -/
theorem append_only_loadMore_witness :
    (finishOk [5] true
        (loadMoreState (finishOk [10] true (startFetch 1 initialState)))).characters =
      (finishOk [10] true (startFetch 1 initialState)).characters ++ [5] :=
  append_only_loadMore _ 2 [5] true
    (Reachable.step Reachable.start (Step.fetchOk _ [10] true (by decide)))
    (by decide)

/-- The state after the mount fetch succeeded with one entity `10` and a
next page: `characters = [10]`, `page = 1`, no flags, no error (phase
`Ready` of the spec). -/
def readyState : AppState := finishOk [10] true (startFetch 1 initialState)

/-- The state after a `loadMore` from `readyState` whose page-2 fetch
failed: `characters = [10]`, `page = 2`, `hasMore = true`, `error` set (the
phase `Failed` of the spec, with accumulated items). -/
def failedMoreState : AppState := finishErr (loadMoreState readyState)

theorem reachable_readyState : Reachable readyState :=
  Reachable.step Reachable.start (Step.fetchOk _ [10] true (by decide))

theorem reachable_failedMoreState : Reachable failedMoreState :=
  Reachable.step
    (Reachable.step reachable_readyState
      (Step.loadMore _ (by decide) (by decide)))
    (Step.fetchErr _ (by decide))

example : failedMoreState =
    { characters := [10], page := 2, loading := false, loadingMore := false,
      hasMore := true, error := some errorMessage, inflight := [] } := by rfl

/-- C3 counterexample: in the reachable `Failed` state left by a failed
`loadMore` (error set, `hasMore` still true), calling `loadMore()` is not a
no-op: it changes the state and issues a fetch for page 3. -/
theorem loadMore_failed_state_fetches :
    Reachable failedMoreState ∧
    failedMoreState.error ≠ none ∧
    failedMoreState.loading = false ∧
    failedMoreState.loadingMore = false ∧
    failedMoreState.hasMore = true ∧
    loadMoreIssued failedMoreState = some 3 ∧
    loadMoreState failedMoreState ≠ failedMoreState :=
  ⟨reachable_failedMoreState, by decide, by decide, by decide, by decide,
    by decide, by decide⟩

/-- C3 (amended): `loadMore()` is a silent no-op — no state change, no
fetch — whenever `loading` or `loadingMore` is set (the loading phases) or
`hasMore` is false (`Exhausted`); its guard does not test `error`, so in a
`Failed` state with `hasMore` still true it does issue a fetch (the UI
merely never fires `onEndReached` there because the list is not rendered
while `error` is set). -/
theorem loadMore_noop_amended (s : AppState)
    (h : s.loading = true ∨ s.loadingMore = true ∨ s.hasMore = false) :
    loadMoreState s = s ∧ loadMoreIssued s = none := by
  rcases h with hc | hc | hc <;>
    exact ⟨by simp [loadMoreState, loadMoreFn, hc],
      by simp [loadMoreIssued, loadMoreFn, hc]⟩

/-- Witness for `loadMore_noop_amended`: during the mount fetch
(`loading = true`) a `loadMore` call does nothing. -/
theorem loadMore_noop_amended_witness :
    loadMoreState (startFetch 1 initialState) = startFetch 1 initialState ∧
    loadMoreIssued (startFetch 1 initialState) = none :=
  loadMore_noop_amended _ (Or.inl (by decide))

/-- C4 counterexample: in the reachable `Failed` state with non-empty
items (`characters = [10]`, failed page `2`), the retry button issues a
fetch for page 1 — not the current cursor — as an initial-style load
(`loading`, not `loadingMore`), and its success replaces the accumulated
items instead of preserving them. -/
theorem retry_not_incremental :
    Reachable failedMoreState ∧
    failedMoreState.characters = [10] ∧
    failedMoreState.error ≠ none ∧
    failedMoreState.page = 2 ∧
    (retryFn failedMoreState).2 = some 1 ∧
    (retryFn failedMoreState).1.loading = true ∧
    (retryFn failedMoreState).1.loadingMore = false ∧
    (finishOk [99] true (retryFn failedMoreState).1).characters = [99] :=
  ⟨reachable_failedMoreState, by decide, by decide, by decide, by decide,
    by decide, by decide, by decide⟩

/-- C4 (amended): from every reachable `Failed` state — whether or not
items are empty — the retry button always calls `fetchCharacters(1)`: it
issues page 1, raises `loading` (an initial-style load), and a successful
resolution replaces `characters` with the fetched page. -/
theorem retry_always_page_one (s : AppState) (hr : Reachable s)
    (h1 : s.loading = false) (h2 : s.error ≠ none) :
    (retryFn s).2 = some 1 ∧
    (retryFn s).1.loading = true ∧
    (retryFn s).1.characters = s.characters ∧
    ∀ results next,
      (finishOk results next (retryFn s).1).characters = results := by
  obtain ⟨hlen, herr, hiff, hpage⟩ := reachable_ctrlInv hr
  have hinf : s.inflight = [] := by
    by_contra hne; exact h2 (herr hne)
  refine ⟨rfl, by simp [retryFn, startFetch], rfl, ?_⟩
  intro results next
  have hred : (retryFn s).1 =
      { s with
        loading := true
        error := none
        inflight := [1] } := by
    simp [retryFn, startFetch, hinf]
  rw [hred]
  simp [finishOk]

/-- Witness for `retry_always_page_one` at `failedMoreState`. -/
theorem retry_always_page_one_witness :
    (retryFn failedMoreState).2 = some 1 ∧
    (finishOk [99] true (retryFn failedMoreState).1).characters = [99] :=
  ⟨(retry_always_page_one _ reachable_failedMoreState (by decide)
      (by decide)).1,
   (retry_always_page_one _ reachable_failedMoreState (by decide)
      (by decide)).2.2.2 [99] true⟩

/-- C5: the cursor is not advanced as part of successful fetch completion —
`loadMore` advances `page` eagerly when it issues the fetch (line 57,
before the outcome is known) and no completion handler ever touches
`page`.  Trace: page 1 succeeds (`readyState`, `page = 1`), `loadMore`
sets `page = 2` and issues page 2, that fetch fails leaving `page = 2`,
the retry fetches page 1 and also leaves `page = 2`, so the next
`loadMore` requests page 3: page 2 is skipped and the list ends up as
`[10, 30]` with the page-2 entities missing. -/
theorem cursor_skip_after_failure :
    loadMoreIssued readyState = some 2 ∧
    (loadMoreState readyState).page = 2 ∧
    (loadMoreState readyState).inflight = [2] ∧
    failedMoreState.page = 2 ∧
    failedMoreState.error ≠ none ∧
    (finishOk [10] true (retryFn failedMoreState).1).page = 2 ∧
    loadMoreIssued (finishOk [10] true (retryFn failedMoreState).1) =
      some 3 ∧
    (finishOk [30] true
        (loadMoreState
          (finishOk [10] true (retryFn failedMoreState).1))).characters =
      [10, 30] := by
  decide

/-- C6 counterexample: the initial-load call `fetchCharacters(1)` fired by
the retry button from the reachable `Failed` state with `characters = [10]`
neither resets `items` to `[]` nor the cursor to the first page before
fetching, and when that fetch fails the resulting state has
`items = [10] ≠ []`. -/
theorem initial_fetch_keeps_items :
    Reachable failedMoreState ∧
    failedMoreState.characters = [10] ∧
    (retryFn failedMoreState).1.characters = [10] ∧
    (retryFn failedMoreState).1.page = 2 ∧
    (finishErr (retryFn failedMoreState).1).characters = [10] ∧
    (finishErr (retryFn failedMoreState).1).error = some errorMessage :=
  ⟨reachable_failedMoreState, by decide, by decide, by decide, by decide,
    by rfl⟩

/-- C6 (amended): `fetchCharacters(1)` leaves `characters` and `page`
untouched before fetching, and a failed page-1 fetch keeps `characters`
exactly as they were while setting the error; consequently the resulting
items are `[]` only when they already were — as for the fresh controller,
whose failed mount fetch does end with `items = []` and the error set. -/
theorem initial_fetch_failure_amended (s : AppState) :
    (startFetch 1 s).characters = s.characters ∧
    (startFetch 1 s).page = s.page ∧
    (finishErr (startFetch 1 s)).characters = s.characters ∧
    (finishErr (startFetch 1 s)).error = some errorMessage ∧
    (finishErr (startFetch 1 initialState)).characters = [] ∧
    (finishErr (startFetch 1 initialState)).error = some errorMessage := by
  refine ⟨rfl, rfl, ?_, ?_, by rfl, by rfl⟩ <;>
    cases hs : s.inflight <;> simp [finishErr, startFetch, hs]

/-- C7: failure preserves prior data on incremental loads — from any
`Ready` state (no flags, no error, `hasMore`), if the fetch issued by
`loadMore()` fails, `characters` are exactly the previously accumulated
items and the error is set. -/
theorem loadMore_failure_preserves_items (s : AppState)
    (h1 : s.loading = false) (h2 : s.loadingMore = false)
    (h3 : s.error = none) (h4 : s.hasMore = true) :
    (finishErr (loadMoreState s)).characters = s.characters ∧
    (finishErr (loadMoreState s)).error = some errorMessage := by
  have hred : loadMoreState s =
      startFetch (s.page + 1) { s with page := s.page + 1 } := by
    simp [loadMoreState, loadMoreFn, h1, h2, h4]
  rw [hred]
  constructor <;> cases hs : s.inflight <;> simp [finishErr, startFetch, hs]

/-- Witness for `loadMore_failure_preserves_items` at `readyState`
(`characters = [10]`). -/
theorem loadMore_failure_preserves_items_witness :
    (finishErr (loadMoreState readyState)).characters =
      readyState.characters ∧
    (finishErr (loadMoreState readyState)).error = some errorMessage :=
  loadMore_failure_preserves_items _ (by decide) (by decide) (by decide)
    (by decide)

/-- C8: exhaustion terminality — once `hasMore` is false, a `loadMore()`
call leaves the state unchanged and issues no fetch, and therefore so does
any number of repeated calls. -/
theorem exhausted_terminal (s : AppState) (h : s.hasMore = false) :
    loadMoreState s = s ∧ loadMoreIssued s = none ∧
    ∀ n : Nat, loadMoreState^[n] s = s := by
  have h1 : loadMoreState s = s := by simp [loadMoreState, loadMoreFn, h]
  refine ⟨h1, by simp [loadMoreIssued, loadMoreFn, h], ?_⟩
  intro n
  induction n with
  | zero => rfl
  | succ n ih => rw [Function.iterate_succ_apply, h1, ih]

/-- Witness for `exhausted_terminal`: the mount fetch succeeding with no
next page yields an exhausted state on which five repeated `loadMore`
calls do nothing. -/
theorem exhausted_terminal_witness :
    loadMoreState (finishOk [10] false (startFetch 1 initialState)) =
      finishOk [10] false (startFetch 1 initialState) ∧
    loadMoreIssued (finishOk [10] false (startFetch 1 initialState)) =
      none ∧
    loadMoreState^[5] (finishOk [10] false (startFetch 1 initialState)) =
      finishOk [10] false (startFetch 1 initialState) :=
  ⟨(exhausted_terminal _ (by decide)).1,
   (exhausted_terminal _ (by decide)).2.1,
   (exhausted_terminal _ (by decide)).2.2 5⟩

/-- C10: every resolution of an outstanding `fetchCharacters` call — the
success path as well as the `catch` path — runs the `finally` block and
ends with both `loading` and `loadingMore` false, so the
`loadingMore || loading` part of the `loadMore` guard can never block
forever after a fetch resolves. -/
theorem fetch_resolution_clears_loading (s : AppState) (results : List Nat)
    (next : Bool) (h : s.inflight ≠ []) :
    (finishOk results next s).loading = false ∧
    (finishOk results next s).loadingMore = false ∧
    (finishErr s).loading = false ∧
    (finishErr s).loadingMore = false ∧
    ((finishOk results next s).loadingMore ||
      (finishOk results next s).loading) = false ∧
    ((finishErr s).loadingMore || (finishErr s).loading) = false := by
  obtain ⟨p, rest, hc⟩ := List.exists_cons_of_ne_nil h
  refine ⟨?_, ?_, ?_, ?_, ?_, ?_⟩ <;> simp [finishOk, finishErr, hc]

/-- Witness for `fetch_resolution_clears_loading` at the mount fetch. -/
theorem fetch_resolution_clears_loading_witness :
    (finishOk [7] true (startFetch 1 initialState)).loading = false ∧
    (finishOk [7] true (startFetch 1 initialState)).loadingMore = false ∧
    (finishErr (startFetch 1 initialState)).loading = false ∧
    (finishErr (startFetch 1 initialState)).loadingMore = false ∧
    ((finishOk [7] true (startFetch 1 initialState)).loadingMore ||
      (finishOk [7] true (startFetch 1 initialState)).loading) = false ∧
    ((finishErr (startFetch 1 initialState)).loadingMore ||
      (finishErr (startFetch 1 initialState)).loading) = false :=
  fetch_resolution_clears_loading _ [7] true (by decide)

/-- The JavaScript value found at `json.results` by line 37.  The
declaration `const results: Character[] = json.results` is a compile-time
type ascription only: at runtime the value is taken as-is.  Besides a
proper array we model the absent field (`undefined`), `null`, and a
non-iterable primitive such as a number. -/
inductive ResultsVal where
  | arr (xs : List Nat)
  | undef
  | nullv
  | num (n : Nat)
deriving DecidableEq, Repr

/-- The body of an HTTP-success response as seen by lines 36–40:
`await res.json()` may reject (invalid JSON), the document may be `null`
(so that reading `json.results` throws), or it is an object with some
`results` value and a `!!json.info && !!json.info.next` flag. -/
inductive JsonBody where
  | parseFail
  | jnull
  | obj (results : ResultsVal) (hasNext : Bool)
deriving DecidableEq, Repr

/-- What the `characters` hook holds after the handler ran: a proper
entity list, or the raw malformed value that line 38 stored unvalidated. -/
inductive Stored where
  | list (xs : List Nat)
  | bad (v : ResultsVal)
deriving DecidableEq, Repr

/-- Lines 36–43 of `fetchCharacters(p)` applied to an HTTP-success
response: result is the new `characters` value and the `error` value.  A
thrown exception (rejected `res.json()`, property read on `null`,
spreading a non-iterable on the append path of line 39) reaches the
`catch` and sets the error; the replace path of line 38 stores
`json.results` without any validation. -/
def processBody (p : Nat) (prev : List Nat) (body : JsonBody) :
    Stored × Option String :=
  match body with
  | .parseFail => (.list prev, some errorMessage)
  | .jnull => (.list prev, some errorMessage)
  | .obj r _ =>
    if p = 1 then
      match r with
      | .arr xs => (.list xs, none)
      | v => (.bad v, none)
    else
      match r with
      | .arr ys => (.list (prev ++ ys), none)
      | _ => (.list prev, some errorMessage)

/-- C9 counterexample: a page-1 HTTP-success response whose payload is an
object without a `results` array (e.g. `{}`) is not surfaced as a failure:
the undefined value is stored as `characters` and `error` stays `null`. -/
theorem decode_malformed_stored :
    (processBody 1 [] (.obj .undef true)).1 = Stored.bad .undef ∧
    (processBody 1 [] (.obj .undef true)).2 = none := by decide

/-- C9 (amended): a rejected `res.json()` and a `null` payload always end
as a failure with `characters` unchanged, and on incremental pages
(`p ≥ 2`) so does every modeled non-array `results` value (the spread on
line 39 throws); but on page 1 the code stores whatever `json.results` is
without validation, so a malformed payload there is not surfaced as a
failure. -/
theorem decode_failure_amended (p : Nat) (prev : List Nat) (r : ResultsVal)
    (hasNext : Bool) (hp : 2 ≤ p) (hr : ∀ xs, r ≠ .arr xs) :
    processBody p prev .parseFail = (.list prev, some errorMessage) ∧
    processBody p prev .jnull = (.list prev, some errorMessage) ∧
    processBody p prev (.obj r hasNext) = (.list prev, some errorMessage) := by
  have hp1 : ¬(p = 1) := by omega
  refine ⟨rfl, rfl, ?_⟩
  cases r with
  | arr xs => exact absurd rfl (hr xs)
  | undef => simp [processBody, hp1]
  | nullv => simp [processBody, hp1]
  | num n => simp [processBody, hp1]

/-- Witness for `decode_failure_amended`: a page-2 response `{}` fails and
keeps the accumulated items. -/
theorem decode_failure_amended_witness :
    processBody 2 [1] .parseFail = (.list [1], some errorMessage) ∧
    processBody 2 [1] .jnull = (.list [1], some errorMessage) ∧
    processBody 2 [1] (.obj .undef true) =
      (.list [1], some errorMessage) :=
  decode_failure_amended 2 [1] .undef true (by decide)
    (fun xs h => ResultsVal.noConfusion h)
